import Mathlib

/-!
A shallow embedding of the `babyenv` package (`env.go`): a small
configuration binder that walks the fields of a struct, reads `env` and
`default` struct tags, looks the named variable up in the process
environment, and writes the resolved value into the field via reflection.

The embedding models:
* the Go `reflect` kinds the binder dispatches on (`FieldType`),
* the runtime values stored in fields (`GoValue`), with pointers made
  explicit (`vptrNull` / `vptrTo`),
* `strconv.ParseBool` / `strconv.ParseInt` (base 10, signed, with the
  bit-size range check) as used by the setters,
* the per-field algorithm of `parseFields` including the panic that
  `reflect.Value.Set` raises on a type mismatch (which `setInt64Pointer`
  triggers on its empty-string path, where `n := 0` has Go type `int`
  while the field has type `*int64`).

The environment is a total map `String → String`; `os.Getenv` yields `""`
for an unset variable, so "absent" and "empty" coincide, as in Go.
-/

namespace Babyenv

/-- The `reflect` kinds distinguished by `parseFields`' switch.  `tbytes` is
`[]byte` (Slice of Uint8); `tsliceOther` is any other slice element kind;
`tuint32`/`tuint64` are unsigned-integer kinds (which the switch does not
handle); `tother` is any remaining kind; `tptr t` is a pointer whose element
kind is `t`. -/
inductive FieldType where
  | tstring
  | tbool
  | tint
  | tint64
  | tbytes
  | tuint32
  | tuint64
  | tsliceOther
  | tother
  | tptr (t : FieldType)
deriving DecidableEq, Repr

/-- A runtime Go value stored in a struct field.  `vbytes s` holds the raw
bytes of the string `s` verbatim (the `[]byte(s)` conversion); `vptrNull` is
a nil pointer, `vptrTo v` a non-nil pointer to `v`. -/
inductive GoValue where
  | vstring (s : String)
  | vbool (b : Bool)
  | vint (n : Int)
  | vint64 (n : Int)
  | vuint (n : Nat)
  | vbytes (s : String)
  | vptrNull
  | vptrTo (v : GoValue)
  | vother
deriving DecidableEq, Repr

/-- One struct field as seen by the binder: its Go name, the values of its
`env` and `default` tags (`""` when the tag is absent), its kind, whether
`reflect` reports it settable (exported), and its current value. -/
structure Field where
  name : String
  tagEnv : String
  tagDefault : String
  ftype : FieldType
  canSet : Bool
  value : GoValue
deriving DecidableEq, Repr

/-- Errors returned by `Parse`/`parseFields`.  `strconvError s` stands for
the `*strconv.NumError` (or bool parse error) produced for input `s`, which
the setters propagate unchanged. -/
inductive BindError where
  | notAStructPointer
  | unsettable (fieldName : String)
  | unsupportedType (t : FieldType)
  | envVarRequired (name : String)
  | strconvError (s : String)
deriving DecidableEq, Repr

/-- Outcome of processing a single field: skipped (no `env` tag), a new
value to store, an error returned to the caller, or a runtime panic raised
by `reflect`. -/
inductive FieldStep where
  | skip
  | set (v : GoValue)
  | err (e : BindError)
  | panic (msg : String)
deriving DecidableEq, Repr

/-- Overall outcome of a call to `Parse`: success, a returned error, or a
panic that escapes the call. -/
inductive BindResult where
  | ok
  | err (e : BindError)
  | panics (msg : String)
deriving DecidableEq, Repr

/-! Models of `strings.Split` on a comma, `strconv.ParseBool` and `strconv.ParseInt`. -/

/-- Model of `strings.Split(s, ",")` over the character list: splits at every comma
and always returns at least one group. -/
def splitCommaList : List Char → List (List Char)
  | [] => [[]]
  | c :: rest =>
    if c = ',' then [] :: splitCommaList rest
    else
      match splitCommaList rest with
      | [] => [[c]]
      | g :: gs => (c :: g) :: gs

/-- Model of `strings.Split(s, ",")`. -/
def splitComma (s : String) : List String :=
  (splitCommaList s.data).map List.asString

theorem splitCommaList_ne_nil (cs : List Char) : splitCommaList cs ≠ [] := by
  induction cs with
  | nil => simp [splitCommaList]
  | cons c rest ih =>
    simp only [splitCommaList]
    split
    · simp
    · cases h : splitCommaList rest with
      | nil => simp
      | cons g gs => simp

theorem splitComma_ne_nil (s : String) : splitComma s ≠ [] := by
  simp [splitComma, splitCommaList_ne_nil]

/-- Model of `strconv.ParseBool`: exactly the twelve literals Go accepts. -/
def strconvParseBool (s : String) : Option Bool :=
  if s = "1" ∨ s = "t" ∨ s = "T" ∨ s = "TRUE" ∨ s = "true" ∨ s = "True" then
    some true
  else if s = "0" ∨ s = "f" ∨ s = "F" ∨ s = "FALSE" ∨ s = "false" ∨ s = "False" then
    some false
  else
    none

/-- Accumulate base-10 digits; `none` on the first non-digit character. -/
def decDigits : List Char → Nat → Option Nat
  | [], acc => some acc
  | c :: cs, acc =>
    if '0' ≤ c ∧ c ≤ '9' then decDigits cs (acc * 10 + (c.toNat - '0'.toNat))
    else none

/-- Model of `strconv.ParseInt(s, 10, bitSize)`: an optional single `+`/`-` sign, a
non-empty run of decimal digits, and a range check against the signed
`bitSize`-bit bounds.  `none` stands for a non-nil error (syntax or range). -/
def strconvParseInt (s : String) (bitSize : Nat) : Option Int :=
  match s.data with
  | [] => none
  | c0 :: rest =>
    let signed : Bool × List Char :=
      if c0 = '+' then (false, rest)
      else if c0 = '-' then (true, rest)
      else (false, c0 :: rest)
    match signed.2 with
    | [] => none
    | ds =>
      match decDigits ds 0 with
      | none => none
      | some n =>
        let v : Int := if signed.1 then -(n : Int) else (n : Int)
        if -(2 ^ (bitSize - 1) : Int) ≤ v ∧ v ≤ (2 ^ (bitSize - 1) : Int) - 1 then
          some v
        else none

/-! Models of the setter helpers of `env.go`. -/

/-- Model of `setBool`: empty string defaults to `false`; otherwise
`strconv.ParseBool`, propagating its error. -/
def setBool (s : String) : Except BindError Bool :=
  if s = "" then .ok false
  else
    match strconvParseBool s with
    | some b => .ok b
    | none => .error (.strconvError s)

/-- Model of `setInt`: empty string defaults to `0`; otherwise
`strconv.ParseInt(s, 10, 32)`, the result stored in the `int` field. -/
def setInt (s : String) : Except BindError Int :=
  if s = "" then .ok 0
  else
    match strconvParseInt s 32 with
    | some n => .ok n
    | none => .error (.strconvError s)

/-- Model of `setInt64`: empty string defaults to `0`; otherwise
`strconv.ParseInt(s, 10, 64)`. -/
def setInt64 (s : String) : Except BindError Int :=
  if s = "" then .ok 0
  else
    match strconvParseInt s 64 with
    | some n => .ok n
    | none => .error (.strconvError s)

/-- Model of `setBoolPointer`: allocates a fresh `bool` and stores a pointer to it. -/
def setBoolPointer (s : String) : Except BindError GoValue :=
  if s = "" then .ok (.vptrTo (.vbool false))
  else
    match strconvParseBool s with
    | some b => .ok (.vptrTo (.vbool b))
    | none => .error (.strconvError s)

/-- Model of `setIntPointer`: parses with `ParseInt(s, 10, 32)`, converts to `int`
and stores a pointer to the fresh `int`. -/
def setIntPointer (s : String) : Except BindError GoValue :=
  if s = "" then .ok (.vptrTo (.vint 0))
  else
    match strconvParseInt s 32 with
    | some n => .ok (.vptrTo (.vint n))
    | none => .error (.strconvError s)

/-- Model of `setInt64Pointer`.  On the empty-string path the source declares
`n := 0`, giving `n` Go type `int`, and then calls
`v.Set(reflect.ValueOf(&n))` on a field of type `*int64`; `reflect.Value.Set`
panics because `*int` is not assignable to `*int64`.  On the non-empty path
it parses with `ParseInt(s, 10, 64)` and stores a pointer to the `int64`. -/
def setInt64Pointer (s : String) : FieldStep :=
  if s = "" then
    .panic "reflect.Set: value of type *int is not assignable to type *int64"
  else
    match strconvParseInt s 64 with
    | some n => .set (.vptrTo (.vint64 n))
    | none => .err (.strconvError s)

/-! Model of the per-field algorithm of `parseFields`. -/

/-- Model of `strings.TrimSpace`: drops leading and trailing whitespace. -/
def trimSpace (s : String) : String :=
  ((s.data.dropWhile Char.isWhitespace).reverse.dropWhile Char.isWhitespace).reverse.asString

/-- Splits the `env` tag on commas: the first part is the variable name,
and the field is required when there is a second part whose
whitespace-trimmed value is `"required"`. -/
def parseEnvTag (tagVal : String) : String × Bool :=
  let parts := splitComma tagVal
  (parts.headD "", decide (2 ≤ parts.length) && (trimSpace (parts.getD 1 "") == "required"))

/-- The string handed to the type-directed setter: the `default` tag when
the environment value is empty, the default is non-empty and the default is
not `"-"` (`shouldSetDefault` in the source); the environment value
otherwise. -/
def sourceString (env : String → String) (f : Field) : String :=
  let envVarVal := env (parseEnvTag f.tagEnv).1
  if envVarVal.length = 0 ∧ 0 < f.tagDefault.length ∧ f.tagDefault ≠ "-" then
    f.tagDefault
  else envVarVal

/-- The `switch fieldKind` of `parseFields`: type-directed conversion and
write of the source string `src`.  Unhandled kinds fall through to
`ErrorUnsupportedType`. -/
def setFieldValue : FieldType → String → FieldStep
  | .tstring, src => .set (.vstring src)
  | .tbool, src =>
    match setBool src with
    | .ok b => .set (.vbool b)
    | .error e => .err e
  | .tint, src =>
    match setInt src with
    | .ok n => .set (.vint n)
    | .error e => .err e
  | .tint64, src =>
    match setInt64 src with
    | .ok n => .set (.vint64 n)
    | .error e => .err e
  | .tbytes, src => .set (.vbytes src)
  | .tptr .tstring, src => .set (.vptrTo (.vstring src))
  | .tptr .tbool, src =>
    match setBoolPointer src with
    | .ok v => .set v
    | .error e => .err e
  | .tptr .tint, src =>
    match setIntPointer src with
    | .ok v => .set v
    | .error e => .err e
  | .tptr .tint64, src => setInt64Pointer src
  | .tptr .tbytes, src => .set (.vptrTo (.vbytes src))
  | .tptr t, _ => .err (.unsupportedType (.tptr t))
  | t, _ => .err (.unsupportedType t)

/-- One iteration of the field loop in `parseFields`: skip on an absent or
`"-"` `env` tag, fail on an unsettable field, fail if required and the
variable is empty, otherwise convert and write the selected source string. -/
def processField (env : String → String) (f : Field) : FieldStep :=
  if f.tagEnv = "" ∨ f.tagEnv = "-" then .skip
  else if f.canSet = false then .err (.unsettable f.name)
  else if (splitComma f.tagEnv).length = 0 then .skip
  else if env (parseEnvTag f.tagEnv).1 = "" ∧ (parseEnvTag f.tagEnv).2 = true then
    .err (.envVarRequired (parseEnvTag f.tagEnv).1)
  else
    setFieldValue f.ftype (sourceString env f)

/-- The field loop: processes fields in declaration order, mutating in
place, and stops at the first error or panic, leaving the remaining fields
untouched. -/
def parseFields (env : String → String) : List Field → List Field × BindResult
  | [] => ([], .ok)
  | f :: rest =>
    match processField env f with
    | .skip =>
      let r := parseFields env rest
      (f :: r.1, r.2)
    | .set v =>
      let r := parseFields env rest
      ({ f with value := v } :: r.1, r.2)
    | .err e => (f :: rest, .err e)
    | .panic m => (f :: rest, .panics m)

/-- The argument passed to `Parse`: either not a pointer, a pointer to a
non-struct, or a pointer to a struct with the given fields. -/
inductive Target where
  | notAPointer
  | pointerToNonStruct
  | pointerToStruct (fields : List Field)
deriving DecidableEq, Repr

/-- Model of `Parse`: checks that the argument is a pointer to a struct (returning
`ErrorNotAStructPointer` otherwise, with nothing touched) and runs
`parseFields`, returning the mutated target alongside the outcome. -/
def Parse (env : String → String) : Target → Target × BindResult
  | .notAPointer => (.notAPointer, .err .notAStructPointer)
  | .pointerToNonStruct => (.pointerToNonStruct, .err .notAStructPointer)
  | .pointerToStruct fields =>
    let r := parseFields env fields
    (.pointerToStruct r.1, r.2)

end Babyenv

namespace Babyenv

/-! Helper lemmas shared by the claim theorems. -/

theorem splitComma_length_pos (s : String) : 0 < (splitComma s).length := by
  cases h : splitComma s with
  | nil => exact absurd h (splitComma_ne_nil s)
  | cons a l => simp

theorem parseEnvTag_required_le (tagVal : String)
    (h : (parseEnvTag tagVal).2 = true) : 2 ≤ (splitComma tagVal).length := by
  unfold parseEnvTag at h
  simp only [Bool.and_eq_true, decide_eq_true_eq] at h
  exact h.1

theorem string_length_eq_zero (s : String) : s.length = 0 ↔ s = "" := by
  rw [← String.length_data, List.length_eq_zero, String.ext_iff]

/-- When the field carries an `env` tag, is settable and the required check
passes, `processField` goes on to the type-directed conversion of the
selected source string. -/
theorem processField_conv (env : String → String) (f : Field)
    (htag : ¬(f.tagEnv = "" ∨ f.tagEnv = "-"))
    (hset : f.canSet = true)
    (hreq : ¬(env (parseEnvTag f.tagEnv).1 = "" ∧ (parseEnvTag f.tagEnv).2 = true)) :
    processField env f = setFieldValue f.ftype (sourceString env f) := by
  have hlen : ¬((splitComma f.tagEnv).length = 0) := by
    have := splitComma_length_pos f.tagEnv
    omega
  unfold processField
  rw [if_neg htag, if_neg (by simp [hset]), if_neg hlen, if_neg hreq]

/-- The `shouldSetDefault` condition of `sourceString`, restated with string
emptiness instead of length comparisons. -/
theorem sourceString_eq (env : String → String) (f : Field) :
    sourceString env f =
      if env (parseEnvTag f.tagEnv).1 = "" ∧ f.tagDefault ≠ "" ∧ f.tagDefault ≠ "-" then
        f.tagDefault
      else env (parseEnvTag f.tagEnv).1 := by
  unfold sourceString
  apply if_congr _ rfl rfl
  rw [string_length_eq_zero, Nat.pos_iff_ne_zero, ne_eq, string_length_eq_zero]

/-! Concrete inputs used by the witnesses and counterexamples. -/

/-- The failing input of C1: a settable field of type `*int64` tagged
`env:"NUM"`, no `default` tag, starting as a nil pointer. -/
def int64PtrField : Field :=
  { name := "Num", tagEnv := "NUM", tagDefault := "",
    ftype := .tptr .tint64, canSet := true, value := .vptrNull }

/-- A required boolean field `env:"A,required"` with `default:"true"`. -/
def requiredBoolField : Field :=
  { name := "A", tagEnv := "A,required", tagDefault := "true",
    ftype := .tbool, canSet := true, value := .vbool false }

/-- A string field `env:"PORT"` with `default:"8000"`. -/
def portField : Field :=
  { name := "Port", tagEnv := "PORT", tagDefault := "8000",
    ftype := .tstring, canSet := true, value := .vstring "" }

/-- C1: the spec says Bind never panics and every failure is a value-level
error, in particular for a tagged `*int64` field whose variable is unset and
which has no default.  The code violates this: on that exact input
`setInt64Pointer` allocates `n := 0` as a Go `int` and `reflect.Value.Set`
panics on the `*int`-to-`*int64` mismatch, so the claim is right and the
code is wrong.  This theorem evaluates the model at the failing input and
shows the panic outcome, with the target untouched. -/
theorem int64PointerZeroValuePathPanics :
    Parse (fun _ => "") (.pointerToStruct [int64PtrField]) =
      (.pointerToStruct [int64PtrField],
        .panics "reflect.Set: value of type *int is not assignable to type *int64") := by
  rfl

/-- C2: for a settable field tagged with the `required` flag, if the named
environment variable is absent or empty then binding fails with
`ErrorEnvVarRequired` before any default is considered — for every content
of the `default` tag — and the field (and everything after it) keeps its
pre-call value. -/
theorem requiredDominatesDefault (env : String → String) (f : Field)
    (rest : List Field)
    (htag : ¬(f.tagEnv = "" ∨ f.tagEnv = "-"))
    (hset : f.canSet = true)
    (hreq : (parseEnvTag f.tagEnv).2 = true)
    (hempty : env (parseEnvTag f.tagEnv).1 = "") :
    parseFields env (f :: rest) =
      (f :: rest, .err (.envVarRequired (parseEnvTag f.tagEnv).1)) := by
  have hlen : ¬((splitComma f.tagEnv).length = 0) := by
    have := parseEnvTag_required_le f.tagEnv hreq
    omega
  have hpf : processField env f = .err (.envVarRequired (parseEnvTag f.tagEnv).1) := by
    unfold processField
    rw [if_neg htag, if_neg (by simp [hset]), if_neg hlen, if_pos ⟨hempty, hreq⟩]
  unfold parseFields
  rw [hpf]

/-- Witness for C2: the required boolean field `env:"A,required"` with
`default:"true"` and variable `A` unset — binding fails with
`ErrorEnvVarRequired "A"` and the default is never written. -/
theorem requiredDominatesDefault_witness :
    parseFields (fun _ => "") [requiredBoolField] =
      ([requiredBoolField], .err (.envVarRequired "A")) := by
  have h := requiredDominatesDefault (fun _ => "") requiredBoolField []
    (by decide) rfl (by decide) rfl
  simpa using h

/-- C3: whenever a tagged, settable field passes the required check, the
source string handed to the conversion step is the `default` tag exactly
when the environment value is empty, the default is non-empty and the
default is not `"-"`; in every other case — in particular whenever the
environment value is non-empty, whatever the required flag — the
environment value is used. -/
theorem sourceSelection (env : String → String) (f : Field)
    (htag : ¬(f.tagEnv = "" ∨ f.tagEnv = "-"))
    (hset : f.canSet = true)
    (hreq : ¬(env (parseEnvTag f.tagEnv).1 = "" ∧ (parseEnvTag f.tagEnv).2 = true)) :
    processField env f =
      setFieldValue f.ftype
        (if env (parseEnvTag f.tagEnv).1 = "" ∧ f.tagDefault ≠ "" ∧ f.tagDefault ≠ "-" then
          f.tagDefault
        else env (parseEnvTag f.tagEnv).1) := by
  rw [processField_conv env f htag hset hreq, sourceString_eq]

/-- Witness for C3: the field `env:"PORT" default:"8000"` with `PORT=7000`
set — the environment value wins over the default and is written verbatim. -/
theorem sourceSelection_witness :
    processField (fun n => if n = "PORT" then "7000" else "") portField =
      .set (.vstring "7000") := by
  have h := sourceSelection (fun n => if n = "PORT" then "7000" else "") portField
    (by decide) rfl (by decide)
  rw [if_neg (by decide)] at h
  exact h

/-- The zero value each supported scalar kind receives from an empty source
string: `false`, `0`, the empty string, the empty byte sequence. -/
def zeroValueOf : FieldType → GoValue
  | .tbool => .vbool false
  | .tint => .vint 0
  | .tint64 => .vint64 0
  | .tbytes => .vbytes ""
  | _ => .vstring ""

/-- A boolean field `env:"DEBUG"` with the explicit no-default sentinel
`default:"-"`, preset to `true`. -/
def noDefaultBoolField : Field :=
  { name := "Debug", tagEnv := "DEBUG", tagDefault := "-",
    ftype := .tbool, canSet := true, value := .vbool true }

/-- An unsigned 64-bit integer field `env:"U"`. -/
def uintField : Field :=
  { name := "U", tagEnv := "U", tagDefault := "",
    ftype := .tuint64, canSet := true, value := .vuint 0 }

/-- A boolean field `env:"B"`. -/
def boolField : Field :=
  { name := "B", tagEnv := "B", tagDefault := "",
    ftype := .tbool, canSet := true, value := .vbool false }

/-- C4: a tagged, settable, non-required field of a supported scalar kind
whose variable is absent or empty and whose `default` tag is empty or the
sentinel `"-"` receives the kind's zero value — `false`, `0`, `""` or the
empty byte sequence — and never produces an error. -/
theorem zeroValueFallback (env : String → String) (f : Field)
    (htag : ¬(f.tagEnv = "" ∨ f.tagEnv = "-"))
    (hset : f.canSet = true)
    (hreq : (parseEnvTag f.tagEnv).2 = false)
    (hempty : env (parseEnvTag f.tagEnv).1 = "")
    (hdef : f.tagDefault = "" ∨ f.tagDefault = "-")
    (hty : f.ftype = .tstring ∨ f.ftype = .tbool ∨ f.ftype = .tint ∨
      f.ftype = .tint64 ∨ f.ftype = .tbytes) :
    processField env f = .set (zeroValueOf f.ftype) := by
  have hnr : ¬(env (parseEnvTag f.tagEnv).1 = "" ∧ (parseEnvTag f.tagEnv).2 = true) := by
    simp [hreq]
  rw [processField_conv env f htag hset hnr, sourceString_eq]
  have hcond : ¬(env (parseEnvTag f.tagEnv).1 = "" ∧ f.tagDefault ≠ "" ∧ f.tagDefault ≠ "-") := by
    rcases hdef with h | h <;> simp [h]
  rw [if_neg hcond, hempty]
  rcases hty with h | h | h | h | h <;> rw [h] <;> rfl

/-- Witness for C4: the boolean field `env:"DEBUG" default:"-"` with
`DEBUG` unset becomes `false`. -/
theorem zeroValueFallback_witness :
    processField (fun _ => "") noDefaultBoolField = .set (.vbool false) := by
  have h := zeroValueFallback (fun _ => "") noDefaultBoolField
    (by decide) rfl (by decide) rfl (Or.inr rfl)
    (Or.inr (Or.inl rfl))
  exact h

/-- Counterexample to C5 as stated: with `U=5` set — a valid non-negative
base-10 literal — Bind returns `ErrorUnsupportedType` for a `uint64` field
instead of succeeding, because unsigned integer kinds are missing from
`parseFields`' switch. -/
theorem unsignedFieldRejected :
    parseFields (fun n => if n = "U" then "5" else "") [uintField] =
      ([uintField], .err (.unsupportedType .tuint64)) := by
  rfl

/-- C5 as amended: unsigned 32/64-bit integer fields are not supported — a
tagged, settable unsigned-integer field that passes the required check
always makes Bind return `ErrorUnsupportedType`, whatever the source
string holds. -/
theorem unsignedUnsupported (env : String → String) (f : Field)
    (htag : ¬(f.tagEnv = "" ∨ f.tagEnv = "-"))
    (hset : f.canSet = true)
    (hreq : ¬(env (parseEnvTag f.tagEnv).1 = "" ∧ (parseEnvTag f.tagEnv).2 = true))
    (hty : f.ftype = .tuint32 ∨ f.ftype = .tuint64) :
    processField env f = .err (.unsupportedType f.ftype) := by
  rw [processField_conv env f htag hset hreq]
  rcases hty with h | h <;> rw [h] <;> rfl

/-- Witness for the amended C5: the `uint64` field with `U=5` set yields
`ErrorUnsupportedType`. -/
theorem unsignedUnsupported_witness :
    processField (fun n => if n = "U" then "5" else "") uintField =
      .err (.unsupportedType .tuint64) := by
  have h := unsignedUnsupported (fun n => if n = "U" then "5" else "") uintField
    (by decide) rfl (by decide) (Or.inr rfl)
  exact h

/-- Counterexample to C6 as stated: with `B=TRue` — a mixed casing of the
accepted literal `true` — Bind returns the parse error instead of `true`,
because `strconv.ParseBool` accepts only its twelve exact literals. -/
theorem mixedCaseBoolRejected :
    parseFields (fun n => if n = "B" then "TRue" else "") [boolField] =
      ([boolField], .err (.strconvError "TRue")) := by
  rfl

/-- C6 as amended: for a non-empty source string, boolean conversion fails
exactly when the string is outside the fixed literal set
`1`, `t`, `T`, `TRUE`, `true`, `True`, `0`, `f`, `F`, `FALSE`, `false`,
`False`; parsing is not case-insensitive beyond the three accepted casings
of each word, so a string such as `TRue` is a conversion error. -/
theorem boolLiteralSetExact (s : String) (hne : s ≠ "") :
    setBool s = .error (.strconvError s) ↔
      s ∉ (["1", "t", "T", "TRUE", "true", "True",
            "0", "f", "F", "FALSE", "false", "False"] : List String) := by
  unfold setBool strconvParseBool
  rw [if_neg hne]
  split_ifs with h1 h2
  · simp only [List.mem_cons, List.mem_singleton]
    exact iff_of_false (by simp) (not_not_intro (by tauto))
  · simp only [List.mem_cons, List.mem_singleton]
    exact iff_of_false (by simp) (not_not_intro (by tauto))
  · simp only [List.mem_cons, List.mem_singleton]
    exact iff_of_true trivial (by tauto)

/-- Witness for the amended C6: instantiated at the mixed-case string
`TRue`, which is outside the literal set and is rejected. -/
theorem boolLiteralSetExact_witness :
    setBool "TRue" = .error (.strconvError "TRue") ↔
      "TRue" ∉ (["1", "t", "T", "TRUE", "true", "True",
                 "0", "f", "F", "FALSE", "false", "False"] : List String) :=
  boolLiteralSetExact "TRue" (by decide)

/-! Lemmas describing one iteration of the field loop. -/

theorem parseFields_cons_skip (env : String → String) (f : Field)
    (rest : List Field) (h : processField env f = .skip) :
    parseFields env (f :: rest) =
      (f :: (parseFields env rest).1, (parseFields env rest).2) := by
  conv_lhs => unfold parseFields
  rw [h]

theorem parseFields_cons_set (env : String → String) (f : Field)
    (rest : List Field) (v : GoValue) (h : processField env f = .set v) :
    parseFields env (f :: rest) =
      ({ f with value := v } :: (parseFields env rest).1, (parseFields env rest).2) := by
  conv_lhs => unfold parseFields
  rw [h]

theorem parseFields_cons_err (env : String → String) (f : Field)
    (rest : List Field) (e : BindError) (h : processField env f = .err e) :
    parseFields env (f :: rest) = (f :: rest, .err e) := by
  unfold parseFields
  rw [h]

theorem parseFields_cons_panic (env : String → String) (f : Field)
    (rest : List Field) (m : String) (h : processField env f = .panic m) :
    parseFields env (f :: rest) = (f :: rest, .panics m) := by
  unfold parseFields
  rw [h]

/-! Lemmas relating the pointer setters to the scalar setters. -/

theorem setBoolPointer_ok (s : String) (v : GoValue)
    (h : setBoolPointer s = .ok v) :
    ∃ b, v = .vptrTo (.vbool b) ∧ setBool s = .ok b := by
  unfold setBoolPointer at h
  unfold setBool
  split_ifs at h ⊢ with hs
  · injection h with h2
    exact ⟨false, h2.symm, rfl⟩
  · cases hp : strconvParseBool s with
    | none => rw [hp] at h; exact absurd h (by simp)
    | some b =>
      rw [hp] at h
      injection h with h2
      exact ⟨b, h2.symm, rfl⟩

theorem setIntPointer_ok (s : String) (v : GoValue)
    (h : setIntPointer s = .ok v) :
    ∃ n, v = .vptrTo (.vint n) ∧ setInt s = .ok n := by
  unfold setIntPointer at h
  unfold setInt
  split_ifs at h ⊢ with hs
  · injection h with h2
    exact ⟨0, h2.symm, rfl⟩
  · cases hp : strconvParseInt s 32 with
    | none => rw [hp] at h; exact absurd h (by simp)
    | some n =>
      rw [hp] at h
      injection h with h2
      exact ⟨n, h2.symm, rfl⟩

theorem setInt64Pointer_set (s : String) (v : GoValue)
    (h : setInt64Pointer s = .set v) :
    ∃ n, v = .vptrTo (.vint64 n) ∧ setInt64 s = .ok n := by
  unfold setInt64Pointer at h
  unfold setInt64
  by_cases hs : s = ""
  · rw [if_pos hs] at h
    exact absurd h (by simp)
  · rw [if_neg hs] at h
    rw [if_neg hs]
    cases hp : strconvParseInt s 64 with
    | none => rw [hp] at h; exact absurd h (by simp)
    | some n =>
      rw [hp] at h
      injection h with h2
      exact ⟨n, h2.symm, rfl⟩

/-- A successful write through a pointer kind always stores a non-nil
pointer whose target is exactly what the corresponding scalar kind would
have produced from the same source string. -/
theorem setFieldValue_ptr_set (t : FieldType) (s : String) (v : GoValue)
    (h : setFieldValue (.tptr t) s = .set v) :
    ∃ w, v = .vptrTo w ∧ setFieldValue t s = .set w := by
  cases t with
  | tstring =>
    have h' : FieldStep.set (.vptrTo (.vstring s)) = .set v := h
    injection h' with h2
    exact ⟨.vstring s, h2.symm, rfl⟩
  | tbytes =>
    have h' : FieldStep.set (.vptrTo (.vbytes s)) = .set v := h
    injection h' with h2
    exact ⟨.vbytes s, h2.symm, rfl⟩
  | tbool =>
    have h' : (match setBoolPointer s with
      | .ok v => FieldStep.set v
      | .error e => FieldStep.err e) = .set v := h
    cases hp : setBoolPointer s with
    | error e => rw [hp] at h'; exact absurd h' (by simp)
    | ok w =>
      rw [hp] at h'
      injection h' with h2
      obtain ⟨b, hw, hb⟩ := setBoolPointer_ok s w hp
      refine ⟨.vbool b, by rw [← h2, hw], ?_⟩
      show (match setBool s with
        | .ok b => FieldStep.set (.vbool b)
        | .error e => FieldStep.err e) = .set (.vbool b)
      rw [hb]
  | tint =>
    have h' : (match setIntPointer s with
      | .ok v => FieldStep.set v
      | .error e => FieldStep.err e) = .set v := h
    cases hp : setIntPointer s with
    | error e => rw [hp] at h'; exact absurd h' (by simp)
    | ok w =>
      rw [hp] at h'
      injection h' with h2
      obtain ⟨n, hw, hn⟩ := setIntPointer_ok s w hp
      refine ⟨.vint n, by rw [← h2, hw], ?_⟩
      show (match setInt s with
        | .ok n => FieldStep.set (.vint n)
        | .error e => FieldStep.err e) = .set (.vint n)
      rw [hn]
  | tint64 =>
    have h' : setInt64Pointer s = .set v := h
    obtain ⟨n, hw, hn⟩ := setInt64Pointer_set s v h'
    refine ⟨.vint64 n, hw, ?_⟩
    show (match setInt64 s with
      | .ok n => FieldStep.set (.vint64 n)
      | .error e => FieldStep.err e) = .set (.vint64 n)
    rw [hn]
  | tuint32 => exact absurd h (by simp [setFieldValue])
  | tuint64 => exact absurd h (by simp [setFieldValue])
  | tsliceOther => exact absurd h (by simp [setFieldValue])
  | tother => exact absurd h (by simp [setFieldValue])
  | tptr t2 => exact absurd h (by simp [setFieldValue])

/-- No pointer kind ever yields the skip outcome from the conversion
switch. -/
theorem setFieldValue_ptr_ne_skip (t : FieldType) (s : String) :
    setFieldValue (.tptr t) s ≠ .skip := by
  cases t with
  | tstring => simp [setFieldValue]
  | tbytes => simp [setFieldValue]
  | tbool => cases hb : setBoolPointer s <;> simp [setFieldValue, hb]
  | tint => cases hb : setIntPointer s <;> simp [setFieldValue, hb]
  | tint64 =>
    show setInt64Pointer s ≠ FieldStep.skip
    unfold setInt64Pointer
    by_cases hs : s = ""
    · rw [if_pos hs]
      simp
    · rw [if_neg hs]
      cases hb : strconvParseInt s 64 <;> simp [hb]
  | tuint32 => simp [setFieldValue]
  | tuint64 => simp [setFieldValue]
  | tsliceOther => simp [setFieldValue]
  | tother => simp [setFieldValue]
  | tptr t2 => simp [setFieldValue]

/-- A pointer-to-bool field `env:"A"`, starting as a nil pointer. -/
def boolPtrField : Field :=
  { name := "A", tagEnv := "A", tagDefault := "",
    ftype := .tptr .tbool, canSet := true, value := .vptrNull }

/-- C7: when Bind succeeds on a struct whose first field is a tagged pointer
field, that field afterwards holds a freshly allocated, non-nil pointer —
whether the value came from the environment, the default, or the zero-value
path — and the pointed-to value is exactly what the corresponding
non-pointer rule produces from the same source string.  In particular a nil
pointer before the call is non-nil after a successful call. -/
theorem pointerFieldsFreshNonNull (env : String → String) (f : Field)
    (rest : List Field) (t : FieldType)
    (htag : ¬(f.tagEnv = "" ∨ f.tagEnv = "-"))
    (hty : f.ftype = .tptr t)
    (hok : (parseFields env (f :: rest)).2 = .ok) :
    ∃ w, (parseFields env (f :: rest)).1.headD f = { f with value := .vptrTo w } ∧
      setFieldValue t (sourceString env f) = .set w := by
  have hcs : f.canSet = true := by
    by_contra hc
    have hcs' : f.canSet = false := by
      revert hc
      cases f.canSet <;> simp
    have hpf : processField env f = .err (.unsettable f.name) := by
      unfold processField
      rw [if_neg htag, if_pos hcs']
    rw [parseFields_cons_err env f rest _ hpf] at hok
    exact absurd hok (by simp)
  have hnr : ¬(env (parseEnvTag f.tagEnv).1 = "" ∧ (parseEnvTag f.tagEnv).2 = true) := by
    by_contra hc
    have hlen : ¬((splitComma f.tagEnv).length = 0) := by
      have := splitComma_length_pos f.tagEnv
      omega
    have hpf : processField env f = .err (.envVarRequired (parseEnvTag f.tagEnv).1) := by
      unfold processField
      rw [if_neg htag, if_neg (by simp [hcs]), if_neg hlen, if_pos hc]
    rw [parseFields_cons_err env f rest _ hpf] at hok
    exact absurd hok (by simp)
  have hpf := processField_conv env f htag hcs hnr
  rw [hty] at hpf
  cases hsv : setFieldValue (.tptr t) (sourceString env f) with
  | skip => exact absurd hsv (setFieldValue_ptr_ne_skip t (sourceString env f))
  | err e =>
    rw [hsv] at hpf
    rw [parseFields_cons_err env f rest e hpf] at hok
    exact absurd hok (by simp)
  | panic m =>
    rw [hsv] at hpf
    rw [parseFields_cons_panic env f rest m hpf] at hok
    exact absurd hok (by simp)
  | set v =>
    rw [hsv] at hpf
    obtain ⟨w, hw, hsc⟩ := setFieldValue_ptr_set t (sourceString env f) v hsv
    refine ⟨w, ?_, hsc⟩
    rw [parseFields_cons_set env f rest v hpf]
    simp [hw]

/-- Witness for C7: a `*bool` field `env:"A"` starting nil, with `A=true`
set — after the successful bind the field is a non-nil pointer and the
pointed-to value is `true`, as the scalar rule produces. -/
theorem pointerFieldsFreshNonNull_witness :
    ∃ w,
      (parseFields (fun n => if n = "A" then "true" else "")
            [boolPtrField]).1.headD boolPtrField =
        { boolPtrField with value := .vptrTo w } ∧
      setFieldValue .tbool
          (sourceString (fun n => if n = "A" then "true" else "") boolPtrField) =
        .set w :=
  pointerFieldsFreshNonNull (fun n => if n = "A" then "true" else "")
    boolPtrField [] .tbool (by decide) rfl rfl

/-- Every field of a struct whose fields all lack an `env` tag (or carry the
skip sentinel) is left untouched and binding succeeds as a no-op. -/
theorem parseFields_all_skip (env : String → String) (fs : List Field)
    (h : ∀ g ∈ fs, g.tagEnv = "" ∨ g.tagEnv = "-") :
    parseFields env fs = (fs, .ok) := by
  induction fs with
  | nil => rfl
  | cons f rest ih =>
    have hf : processField env f = .skip := by
      unfold processField
      rw [if_pos (h f (List.mem_cons_self f rest))]
    rw [parseFields_cons_skip env f rest hf,
      ih (fun g hg => h g (List.mem_cons_of_mem f hg))]

/-- C8: a field whose `env` tag is absent or the skip sentinel `"-"` is
never touched by Bind — after any call, whatever happens to the other
fields, it holds exactly its pre-call value, with no settability or type
check performed on it; and a struct all of whose fields are untagged binds
successfully as a no-op. -/
theorem skipTagFramePreservation (env : String → String) (fs : List Field)
    (i : Nat) (hi : i < fs.length)
    (h : (fs.get ⟨i, hi⟩).tagEnv = "" ∨ (fs.get ⟨i, hi⟩).tagEnv = "-") :
    (parseFields env fs).1.get? i = some (fs.get ⟨i, hi⟩) ∧
      ((∀ g ∈ fs, g.tagEnv = "" ∨ g.tagEnv = "-") → parseFields env fs = (fs, .ok)) := by
  refine ⟨?_, fun hall => parseFields_all_skip env fs hall⟩
  induction fs generalizing i with
  | nil => exact absurd hi (by simp)
  | cons f rest ih =>
    cases i with
    | zero =>
      have h0 : f.tagEnv = "" ∨ f.tagEnv = "-" := h
      have hf : processField env f = .skip := by
        unfold processField
        rw [if_pos h0]
      rw [parseFields_cons_skip env f rest hf]
      rfl
    | succ j =>
      have hj : j < rest.length := by simpa using hi
      have hrec := ih j hj h
      cases hstep : processField env f with
      | skip =>
        rw [parseFields_cons_skip env f rest hstep]
        simpa using hrec
      | set v =>
        rw [parseFields_cons_set env f rest v hstep]
        simpa using hrec
      | err e =>
        rw [parseFields_cons_err env f rest e hstep]
        exact List.get?_eq_get hi
      | panic m =>
        rw [parseFields_cons_panic env f rest m hstep]
        exact List.get?_eq_get hi

/-- A string field with no `env` tag, preset to a sentinel value. -/
def untaggedField : Field :=
  { name := "Hidden", tagEnv := "", tagDefault := "ignored",
    ftype := .tstring, canSet := false, value := .vstring "sentinel" }

/-- Witness for C8: an untagged, unsettable field preset to `"sentinel"`
keeps that value and the one-field struct binds successfully as a no-op. -/
theorem skipTagFramePreservation_witness :
    (parseFields (fun _ => "X") [untaggedField]).1.get? 0 = some untaggedField ∧
      ((∀ g ∈ [untaggedField], g.tagEnv = "" ∨ g.tagEnv = "-") →
        parseFields (fun _ => "X") [untaggedField] = ([untaggedField], .ok)) := by
  have h := skipTagFramePreservation (fun _ => "X") [untaggedField] 0
    (by simp) (Or.inl rfl)
  simpa using h

/-- How one iteration of the field loop leaves a field: unchanged unless
the step stored a new value. -/
def applyStep (f : Field) : FieldStep → Field
  | .set v => { f with value := v }
  | _ => f

/-- C9: fields are processed in declaration order and the loop is
fail-fast — if every field before `f` is skipped or successfully set and
`f`'s processing yields an error, Bind returns exactly that error; the
fields before `f` keep their newly assigned values (no rollback) and `f`
and every field after it keep their pre-call values. -/
theorem failFastFirstError (env : String → String) (pre : List Field)
    (f : Field) (post : List Field) (e : BindError)
    (hpre : ∀ g ∈ pre, processField env g = .skip ∨ ∃ v, processField env g = .set v)
    (hf : processField env f = .err e) :
    parseFields env (pre ++ f :: post) =
      (pre.map (fun g => applyStep g (processField env g)) ++ f :: post, .err e) := by
  induction pre with
  | nil =>
    simp only [List.nil_append, List.map_nil]
    exact parseFields_cons_err env f post e hf
  | cons g gs ih =>
    have hrest := ih (fun x hx => hpre x (List.mem_cons_of_mem g hx))
    rcases hpre g (List.mem_cons_self g gs) with hsk | ⟨v, hset⟩
    · rw [List.cons_append, parseFields_cons_skip env g (gs ++ f :: post) hsk, hrest]
      simp [applyStep, hsk]
    · rw [List.cons_append, parseFields_cons_set env g (gs ++ f :: post) v hset, hrest]
      simp [applyStep, hset]

/-- A boolean field `env:"A"`, bound before the failing field. -/
def firstBoolField : Field :=
  { name := "A", tagEnv := "A", tagDefault := "",
    ftype := .tbool, canSet := true, value := .vbool false }

/-- A required int field `env:"R,required"`, the failing field. -/
def failingRequiredField : Field :=
  { name := "R", tagEnv := "R,required", tagDefault := "",
    ftype := .tint, canSet := true, value := .vint 7 }

/-- An int field `env:"C" default:"9"` after the failing field, preset. -/
def trailingIntField : Field :=
  { name := "C", tagEnv := "C", tagDefault := "9",
    ftype := .tint, canSet := true, value := .vint 5 }

/-- Witness for C9: with `A=1` set and `R` unset, the first field is bound
to `true`, the missing required variable `R` aborts the call with
`ErrorEnvVarRequired "R"`, the first field keeps its new value, and the
trailing field keeps its pre-call value `5` — its default `9` is never
applied. -/
theorem failFastFirstError_witness :
    parseFields (fun n => if n = "A" then "1" else "")
        [firstBoolField, failingRequiredField, trailingIntField] =
      ([{ firstBoolField with value := .vbool true },
        failingRequiredField, trailingIntField],
        .err (.envVarRequired "R")) := by
  have h := failFastFirstError (fun n => if n = "A" then "1" else "")
    [firstBoolField] failingRequiredField [trailingIntField] (.envVarRequired "R")
    (by
      intro g hg
      rw [List.mem_singleton] at hg
      subst hg
      exact Or.inr ⟨.vbool true, by decide⟩)
    (by decide)
  exact h

/-- A `[]byte` field `env:"D"`. -/
def bytesField : Field :=
  { name := "D", tagEnv := "D", tagDefault := "",
    ftype := .tbytes, canSet := true, value := .vbytes "" }

/-- C10: a field of type `string`, `[]byte`, `*string` or `*[]byte` never
produces a conversion error: processing it can only skip, succeed with a
stored value, or fail with the settability or required-variable checks —
for every environment and every tag content, the source string is written
verbatim. -/
theorem textFieldsNeverConversionError (env : String → String) (f : Field)
    (hty : f.ftype = .tstring ∨ f.ftype = .tbytes ∨
      f.ftype = .tptr .tstring ∨ f.ftype = .tptr .tbytes) :
    processField env f = .skip ∨ (∃ v, processField env f = .set v) ∨
      processField env f = .err (.unsettable f.name) ∨
      processField env f = .err (.envVarRequired (parseEnvTag f.tagEnv).1) := by
  unfold processField
  split_ifs with h1 h2 h3 h4
  · exact Or.inl rfl
  · exact Or.inr (Or.inr (Or.inl rfl))
  · exact Or.inl rfl
  · exact Or.inr (Or.inr (Or.inr rfl))
  · refine Or.inr (Or.inl ?_)
    rcases hty with h | h | h | h <;> rw [h] <;> exact ⟨_, rfl⟩

/-- Witness for C10: a `[]byte` field receiving the arbitrary string
`"not a number!"` — the step stores a value and is not an error. -/
theorem textFieldsNeverConversionError_witness :
    processField (fun n => if n = "D" then "not a number!" else "") bytesField = .skip ∨
      (∃ v, processField (fun n => if n = "D" then "not a number!" else "")
        bytesField = .set v) ∨
      processField (fun n => if n = "D" then "not a number!" else "") bytesField =
        .err (.unsettable bytesField.name) ∨
      processField (fun n => if n = "D" then "not a number!" else "") bytesField =
        .err (.envVarRequired (parseEnvTag bytesField.tagEnv).1) :=
  textFieldsNeverConversionError (fun n => if n = "D" then "not a number!" else "")
    bytesField (Or.inr (Or.inl rfl))

end Babyenv
